import Mathlib

/-!
Verification of the Gravwell CoreDNS plugin (gravwell.go): the
response-interception and encoding pipeline, shallowly embedded in Lean.

The Go source under scrutiny consists of the introspector (a decorator over
dns.ResponseWriter), the textEncoder and jsonEncoder implementations of the
encoder interface, getEncoder, the encoder defaulting step of parseConfig,
and gwHandler.ServeDNS.

Modelling conventions:
- Records are Lean Strings (the Go code produces byte slices of UTF-8 text).
- External library values are embedded by their observable behavior:
  entry.Timestamp carries its String() rendering and the result of its JSON
  marshalling; net.Addr carries Network() and String(); dns.RR (an interface
  type of the miekg/dns library) carries its String() rendering and the
  result of json.Marshal on the underlying resource record, which may fail;
  dns.Question is the concrete struct with Name, Qtype, Qclass plus its
  String() rendering (json.Marshal of a dns.Question never fails, it is a
  struct of a string and two integers).
- json.Marshal output is modelled as a JSON syntax tree (Json) together
  with a rendering function to the record text; Go marshals struct fields
  in declaration order, embedded structs inlined first, and returns the
  first field error encountered.
-/

namespace GravwellCoreDNS

/-- JSON values, as produced by the json.Marshal model. -/
inductive Json where
  | str : String → Json
  | num : Nat → Json
  | obj : List (String × Json) → Json
deriving Repr

/-- Escape of one character inside a JSON string literal. -/
def jsonEscapeChar (c : Char) : String :=
  if c = '"' then "\\\"" else if c = '\\' then "\\\\" else String.singleton c

/-- Escape of a string for inclusion in a JSON string literal. -/
def jsonEscape (s : String) : String :=
  String.join (s.data.map jsonEscapeChar)

mutual

/-- Rendering of a JSON value to its textual form. -/
def Json.render : Json → String
  | .str s => "\"" ++ jsonEscape s ++ "\""
  | .num n => Nat.repr n
  | .obj fs => "\x7b" ++ Json.renderFields fs ++ "\x7d"

/-- Rendering of the comma-separated field list of a JSON object. -/
def Json.renderFields : List (String × Json) → String
  | [] => ""
  | [(k, v)] => "\"" ++ jsonEscape k ++ "\":" ++ Json.render v
  | (k, v) :: f :: fs =>
    "\"" ++ jsonEscape k ++ "\":" ++ Json.render v ++ "," ++ Json.renderFields (f :: fs)

end

/-- Association lookup among the fields of a JSON object; this is the
decoding step used to read a field back out of a produced JSON record. -/
def assocLookup : List (String × Json) → String → Option Json
  | [], _ => none
  | (k, v) :: rest, key => if key == k then some v else assocLookup rest key

/-- Field lookup on a JSON value: the decoder of produced objects. -/
def Json.lookup : Json → String → Option Json
  | .obj fs, key => assocLookup fs key
  | _, _ => none

/-- Model of entry.Timestamp: its String() rendering and the result of its
JSON marshalling. -/
structure Timestamp where
  str : String
  mjson : Except String Json

/-- Model of net.Addr: Network() and String(). -/
structure Addr where
  network : String
  str : String

/-- Model of dns.Question: Name, Qtype, Qclass, plus its String()
rendering from the miekg/dns library. -/
structure Question where
  name : String
  qtype : Nat
  qclass : Nat
  str : String

/-- Model of a dns.RR interface value: its String() rendering and the
result of json.Marshal on the underlying concrete resource record. -/
structure RR where
  str : String
  marshal : Except String Json

/-- Model of dns.Msg restricted to what the plugin reads: the Question and
Answer sections, plus the result of Pack(). -/
structure Msg where
  question : List Question
  answer : List RR
  pack : Except String String

/-- json.Marshal of a dns.Question: a struct of a string and two uint16,
marshalled field by field; never fails. -/
def questionJson (q : Question) : Json :=
  .obj [("Name", .str q.name), ("Qtype", .num q.qtype), ("Qclass", .num q.qclass)]

/-- Capture state of the introspector: the q and a fields (Go zero value:
nil slices). The wrapped ResponseWriter is modelled separately. -/
structure IntroState where
  q : List Question
  a : List RR

/-- Initial capture state: both slices nil. -/
def introInit : IntroState := ⟨[], []⟩

/-- Model of the wrapped dns.ResponseWriter: the results it returns for a
raw Write (byte count and error) and for a WriteMsg (error). -/
structure RespWriter where
  writeRes : String → Int × Option String
  writeMsgRes : Msg → Option String

/-- introspector.Write: delegates the raw bytes to the wrapped writer and
returns its result; capture state is untouched. -/
def introWrite (rw : RespWriter) (s : IntroState) (b : String) :
    IntroState × (Int × Option String) :=
  (s, rw.writeRes b)

/-- introspector.WriteMsg: copies the Question and Answer sections of the
message into the capture fields, then delegates the message to the wrapped
writer and returns its result. -/
def introWriteMsg (rw : RespWriter) (_s : IntroState) (m : Msg) :
    IntroState × Option String :=
  (⟨m.question, m.answer⟩, rw.writeMsgRes m)

/-- One write operation performed through the introspector. -/
inductive WOp where
  | raw : String → WOp
  | msg : Msg → WOp

/-- Effect of one write operation on the capture state. -/
def applyOp (s : IntroState) : WOp → IntroState
  | .raw _ => s
  | .msg m => ⟨m.question, m.answer⟩

/-- Capture state after a sequence of write operations. -/
def runOps (s : IntroState) (ops : List WOp) : IntroState :=
  ops.foldl applyOp s

/-- The last structured-message write of a sequence of operations. -/
def lastWriteMsg : List WOp → Option Msg
  | [] => none
  | .raw _ :: rest => lastWriteMsg rest
  | .msg m :: rest => some ((lastWriteMsg rest).getD m)

/-- The Sprintf format shared by textEncoder.Encode and
textEncoder.EncodeError: timestamp, protocol, local address, remote
address, and the payload string. -/
def fmtTextLine (ts : Timestamp) (l r : Addr) (dt : String) : String :=
  ts.str ++ " " ++ l.network ++ " " ++ l.str ++ " " ++ r.str ++ " " ++ dt

/-- Loop body of textEncoder.Encode: iterate the question slice by index;
when an answer exists at the same index its String() form is the payload,
otherwise the question String() form is. -/
def textEncodeGo (ts : Timestamp) (l r : Addr) :
    List Question → List RR → List String
  | [], _ => []
  | q :: qs, [] => fmtTextLine ts l r q.str :: textEncodeGo ts l r qs []
  | _ :: qs, a :: as => fmtTextLine ts l r a.str :: textEncodeGo ts l r qs as

/-- textEncoder.Encode on the captured introspector state. -/
def textEncoderEncode (ts : Timestamp) (l r : Addr) (tr : IntroState) : List String :=
  textEncodeGo ts l r tr.q tr.a

/-- textEncoder.EncodeError: one line per question of the original request
message; the error argument is not used by the body. -/
def textEncodeError (ts : Timestamp) (l r : Addr) (msg : Msg) (_e : String) :
    List String :=
  msg.question.map (fun q => fmtTextLine ts l r q.str)

/-- The dnsBase fields shared by every successful JSON payload, in Go
declaration order: TS, Proto, Local, Remote. -/
def dnsBaseObj (tj : Json) (l r : Addr) : List (String × Json) :=
  [("TS", tj), ("Proto", .str l.network), ("Local", .str l.str), ("Remote", .str r.str)]

/-- Shape shared by marshalled dnsAnswer and dnsQuestion values: the
embedded dnsBase fields followed by the Question field. -/
def payloadObj (tj : Json) (l r : Addr) (qv : Json) : Json :=
  .obj (dnsBaseObj tj l r ++ [("Question", qv)])

/-- The Question field of a marshalled dnsQuestion value: the bare question
wrapped under Hdr. -/
def questionHdrObj (q : Question) : Json :=
  .obj [("Hdr", questionJson q)]

/-- Shape of a marshalled errAnswer value: TS, Proto, Local, Remote,
Question, Error, in declaration order. -/
def errObj (tj : Json) (l r : Addr) (q : Question) (e : String) : Json :=
  .obj (dnsBaseObj tj l r ++ [("Question", questionJson q), ("Error", .str e)])

/-- json.Marshal of a dnsAnswer value: fails when the timestamp or the
resource record fails to marshal, returning the first field error. -/
def marshalDnsAnswer (ts : Timestamp) (l r : Addr) (rr : RR) : Except String Json :=
  match ts.mjson with
  | .error e => .error e
  | .ok tj =>
    match rr.marshal with
    | .error e => .error e
    | .ok rj => .ok (payloadObj tj l r rj)

/-- json.Marshal of a dnsQuestion value: fails only when the timestamp
fails to marshal. -/
def marshalDnsQuestion (ts : Timestamp) (l r : Addr) (q : Question) : Except String Json :=
  match ts.mjson with
  | .error e => .error e
  | .ok tj => .ok (payloadObj tj l r (questionHdrObj q))

/-- json.Marshal of an errAnswer value: fails only when the timestamp
fails to marshal. -/
def marshalErrAnswer (ts : Timestamp) (l r : Addr) (q : Question) (e : String) :
    Except String Json :=
  match ts.mjson with
  | .error er => .error er
  | .ok tj => .ok (errObj tj l r q e)

/-- The textual fallback record substituted when json.Marshal fails:
Sprintf of the timestamp and the marshal error. -/
def jsonFallback (ts : Timestamp) (e : String) : String :=
  ts.str ++ " ERROR JSON marshal: " ++ e

/-- Emission of one JSON record: the rendered marshal output on success,
the textual fallback on marshal failure. -/
def renderOrFallback (ts : Timestamp) : Except String Json → String
  | .ok j => j.render
  | .error e => jsonFallback ts e

/-- Loop body of jsonEncoder.Encode: iterate the question slice by index;
when the index is past the answer slice a dnsQuestion payload is marshalled,
otherwise a dnsAnswer payload; a marshal failure is replaced by the textual
fallback and the record is appended either way. -/
def jsonEncodeGo (ts : Timestamp) (l r : Addr) :
    List Question → List RR → List String
  | [], _ => []
  | q :: qs, [] =>
    renderOrFallback ts (marshalDnsQuestion ts l r q) :: jsonEncodeGo ts l r qs []
  | _ :: qs, a :: as =>
    renderOrFallback ts (marshalDnsAnswer ts l r a) :: jsonEncodeGo ts l r qs as

/-- jsonEncoder.Encode on the captured introspector state. -/
def jsonEncoderEncode (ts : Timestamp) (l r : Addr) (tr : IntroState) : List String :=
  jsonEncodeGo ts l r tr.q tr.a

/-- jsonEncoder.EncodeError: one errAnswer record per question of the
original request message, each embedding the error text; marshal failures
fall back to the textual diagnostic. -/
def jsonEncodeError (ts : Timestamp) (l r : Addr) (msg : Msg) (e : String) :
    List String :=
  msg.question.map (fun q => renderOrFallback ts (marshalErrAnswer ts l r q e))

/-- The encoder implementations the current source can construct: getEncoder
returns either a textEncoder or a jsonEncoder value. -/
inductive EncKind where
  | text : EncKind
  | json : EncKind
deriving Repr, DecidableEq

/-- Model of strings.ToLower restricted to the character mapping of
Char.toLower. -/
def toLowerStr (s : String) : String :=
  String.mk (s.data.map Char.toLower)

/-- Model of strings.TrimSpace: drop leading and trailing whitespace. -/
def trimSpace (s : String) : String :=
  String.mk (((s.data.dropWhile Char.isWhitespace).reverse.dropWhile Char.isWhitespace).reverse)

/-- getEncoder: lowercase and trim the directive value, then select the
encoder; the current source accepts text, json, and the empty string (json)
and rejects everything else, including native. -/
def getEncoder (t : String) : Except String EncKind :=
  let t := trimSpace (toLowerStr t)
  if t = "text" then .ok .text
  else if t = "json" then .ok .json
  else if t = "" then .ok .json
  else .error "Unknown encoding type"

/-- Encoder selection step of parseConfig: when an encoding directive is
present its getEncoder result is used (an error aborts configuration); when
no directive was given the encoder is nil after the block and the default
jsonEncoder is substituted. -/
def configuredEncoder (directive : Option String) : Except String EncKind :=
  match directive with
  | some v => getEncoder v
  | none => .ok EncKind.json

/-- Dispatch of encoder.Encode over the constructible encoders. -/
def encodeWith : EncKind → Timestamp → Addr → Addr → IntroState → List String
  | .text => textEncoderEncode
  | .json => jsonEncoderEncode

/-- Dispatch of encoder.EncodeError over the constructible encoders. -/
def encodeErrorWith : EncKind → Timestamp → Addr → Addr → Msg → String → List String
  | .text => textEncodeError
  | .json => jsonEncodeError

/-- Model of the ingest muxer: the result of the k-th im.Write call of one
transaction with the given record payload (none is success). -/
structure Muxer where
  accept : Nat → String → Option String

/-- The submission loop of ServeDNS: call im.Write for each record in
order; the first failing call ends the loop, later records are not
submitted. The trace pairs each attempted record with its write result. -/
def imWriteLoop (im : Muxer) : Nat → List String → List (String × Option String)
  | _, [] => []
  | k, bb :: rest =>
    match im.accept k bb with
    | none => (bb, none) :: imWriteLoop im (k + 1) rest
    | some e => [(bb, some e)]

/-- The downstream plugin handler as observed by ServeDNS: the write
operations it performs through the introspector and the status code and
error it returns. -/
structure Downstream where
  ops : List WOp
  res : Int × Option String

/-- The record used in the nil-encoder branch when the downstream returned
an error: Sprintf of the downstream error (the Go code tests err, the
downstream error, not lerr, the Pack error). -/
def packFailRecord (e : String) : String :=
  "ERROR: Failed to pack DNS response: " ++ e

/-- The record batch ServeDNS builds for one transaction: with a nil
encoder the packed request (or the diagnostic when the downstream errored;
nil bytes when Pack failed); otherwise EncodeError on the request for a
downstream error, and Encode on the captured state on success. -/
def serveRecords (enc : Option EncKind) (ts : Timestamp) (l r : Addr)
    (d : Downstream) (rm : Msg) : List String :=
  match enc with
  | none =>
    match d.res.2 with
    | some de => [packFailRecord de]
    | none => [match rm.pack with | .ok b => b | .error _ => ""]
  | some ge =>
    match d.res.2 with
    | some de => encodeErrorWith ge ts l r rm de
    | none => encodeWith ge ts l r (runOps introInit d.ops)

/-- Result of one ServeDNS call: the returned status code and error, and
the trace of im.Write submissions. -/
structure ServeOut where
  c : Int
  err : Option String
  writes : List (String × Option String)

/-- gwHandler.ServeDNS: wrap the writer in an introspector, run the
downstream handler, build the record batch, submit it; the returned status
code and error are the named return values c and err, which only the
downstream call assigns. -/
def serveDNS (enc : Option EncKind) (im : Muxer) (ts : Timestamp) (l r : Addr)
    (d : Downstream) (rm : Msg) : ServeOut :=
  ⟨d.res.1, d.res.2, imWriteLoop im 0 (serveRecords enc ts l r d rm)⟩

/-- Whether one string occurs as a contiguous run at the head of another. -/
def leadsWith : List Char → List Char → Bool
  | [], _ => true
  | _ :: _, [] => false
  | c :: cs, d :: ds => c == d && leadsWith cs ds

/-- Whether the needle occurs as a contiguous run anywhere in the hay. -/
def containsRun (needle : List Char) : List Char → Bool
  | [] => leadsWith needle []
  | d :: ds => leadsWith needle (d :: ds) || containsRun needle ds

/-- Whether a produced record embeds the given text as a substring. -/
def embedsText (rec e : String) : Bool :=
  containsRun e.data rec.data

theorem textEncodeGo_length (ts : Timestamp) (l r : Addr) :
    ∀ (q : List Question) (a : List RR), (textEncodeGo ts l r q a).length = q.length := by
  intro q
  induction q with
  | nil => intro a; cases a <;> rfl
  | cons qh qt ih =>
    intro a
    cases a with
    | nil => simpa [textEncodeGo] using ih []
    | cons ah tl => simpa [textEncodeGo] using ih tl

theorem jsonEncodeGo_length (ts : Timestamp) (l r : Addr) :
    ∀ (q : List Question) (a : List RR), (jsonEncodeGo ts l r q a).length = q.length := by
  intro q
  induction q with
  | nil => intro a; cases a <;> rfl
  | cons qh qt ih =>
    intro a
    cases a with
    | nil => simpa [jsonEncodeGo] using ih []
    | cons ah tl => simpa [jsonEncodeGo] using ih tl

theorem textEncodeGo_get (ts : Timestamp) (l r : Addr) :
    ∀ (q : List Question) (a : List RR) (i : Nat) (qi : Question),
      q.get? i = some qi →
      ((∀ ai, a.get? i = some ai →
          (textEncodeGo ts l r q a).get? i = some (fmtTextLine ts l r ai.str)) ∧
       (a.get? i = none →
          (textEncodeGo ts l r q a).get? i = some (fmtTextLine ts l r qi.str))) := by
  intro q
  induction q with
  | nil => intro a i qi h; simp at h
  | cons qh qt ih =>
    intro a i qi hq
    cases a with
    | nil =>
      cases i with
      | zero =>
        simp only [List.get?_cons_zero, Option.some.injEq] at hq
        subst hq
        exact ⟨fun ai hai => by simp at hai, fun _ => by simp [textEncodeGo]⟩
      | succ n =>
        simp only [List.get?_cons_succ] at hq
        have h := ih [] n qi hq
        constructor
        · intro ai hai; simp at hai
        · intro _
          simpa [textEncodeGo] using h.2 rfl
    | cons ah tl =>
      cases i with
      | zero =>
        constructor
        · intro ai hai
          simp only [List.get?_cons_zero, Option.some.injEq] at hai
          subst hai
          simp [textEncodeGo]
        · intro hnone; simp at hnone
      | succ n =>
        simp only [List.get?_cons_succ] at hq
        have h := ih tl n qi hq
        constructor
        · intro ai hai
          simp only [List.get?_cons_succ] at hai
          simpa [textEncodeGo] using h.1 ai hai
        · intro hnone
          simp only [List.get?_cons_succ] at hnone
          simpa [textEncodeGo] using h.2 hnone

theorem jsonEncodeGo_get (ts : Timestamp) (l r : Addr) :
    ∀ (q : List Question) (a : List RR) (i : Nat) (qi : Question),
      q.get? i = some qi →
      ((∀ ai, a.get? i = some ai →
          (jsonEncodeGo ts l r q a).get? i
            = some (renderOrFallback ts (marshalDnsAnswer ts l r ai))) ∧
       (a.get? i = none →
          (jsonEncodeGo ts l r q a).get? i
            = some (renderOrFallback ts (marshalDnsQuestion ts l r qi)))) := by
  intro q
  induction q with
  | nil => intro a i qi h; simp at h
  | cons qh qt ih =>
    intro a i qi hq
    cases a with
    | nil =>
      cases i with
      | zero =>
        simp only [List.get?_cons_zero, Option.some.injEq] at hq
        subst hq
        exact ⟨fun ai hai => by simp at hai, fun _ => by simp [jsonEncodeGo]⟩
      | succ n =>
        simp only [List.get?_cons_succ] at hq
        have h := ih [] n qi hq
        constructor
        · intro ai hai; simp at hai
        · intro _
          simpa [jsonEncodeGo] using h.2 rfl
    | cons ah tl =>
      cases i with
      | zero =>
        constructor
        · intro ai hai
          simp only [List.get?_cons_zero, Option.some.injEq] at hai
          subst hai
          simp [jsonEncodeGo]
        · intro hnone; simp at hnone
      | succ n =>
        simp only [List.get?_cons_succ] at hq
        have h := ih tl n qi hq
        constructor
        · intro ai hai
          simp only [List.get?_cons_succ] at hai
          simpa [jsonEncodeGo] using h.1 ai hai
        · intro hnone
          simp only [List.get?_cons_succ] at hnone
          simpa [jsonEncodeGo] using h.2 hnone

theorem jsonEncode_record_ok (ts : Timestamp) (l r : Addr) (tr : IntroState)
    (i : Nat) (qi : Question) (tj : Json)
    (hts : ts.mjson = .ok tj) (hq : tr.q.get? i = some qi) :
    (∀ ai rj, tr.a.get? i = some ai → ai.marshal = .ok rj →
       (jsonEncoderEncode ts l r tr).get? i = some (payloadObj tj l r rj).render) ∧
    (tr.a.get? i = none →
       (jsonEncoderEncode ts l r tr).get? i
         = some (payloadObj tj l r (questionHdrObj qi)).render) := by
  have h := jsonEncodeGo_get ts l r tr.q tr.a i qi hq
  constructor
  · intro ai rj hai hm
    show (jsonEncodeGo ts l r tr.q tr.a).get? i = _
    rw [h.1 ai hai]
    simp [marshalDnsAnswer, hts, hm, renderOrFallback]
  · intro hnone
    show (jsonEncodeGo ts l r tr.q tr.a).get? i = _
    rw [h.2 hnone]
    simp [marshalDnsQuestion, hts, renderOrFallback]

theorem imWriteLoop_all_ok (im : Muxer)
    (hacc : ∀ k bb, im.accept k bb = none) :
    ∀ (bbs : List String) (k : Nat),
      imWriteLoop im k bbs = bbs.map (fun bb => (bb, none)) := by
  intro bbs
  induction bbs with
  | nil => intro k; rfl
  | cons bb rest ih =>
    intro k
    simp [imWriteLoop, hacc k bb, ih (k + 1)]

theorem imWriteLoop_first_fail (im : Muxer) :
    ∀ (bbs : List String) (k i : Nat) (bbi e : String),
      (∀ j bbj, j < i → bbs.get? j = some bbj → im.accept (k + j) bbj = none) →
      bbs.get? i = some bbi →
      im.accept (k + i) bbi = some e →
      imWriteLoop im k bbs = (bbs.take i).map (fun bb => (bb, none)) ++ [(bbi, some e)] := by
  intro bbs
  induction bbs with
  | nil => intro k i bbi e _ hi _; simp at hi
  | cons bb rest ih =>
    intro k i bbi e hpre hi hfail
    cases i with
    | zero =>
      simp only [List.get?_cons_zero, Option.some.injEq] at hi
      subst hi
      simp only [Nat.add_zero] at hfail
      simp [imWriteLoop, hfail]
    | succ n =>
      have h0 : im.accept (k + 0) bb = none := hpre 0 bb (Nat.succ_pos n) rfl
      simp only [Nat.add_zero] at h0
      simp only [List.get?_cons_succ] at hi
      have hpre2 : ∀ j bbj, j < n → rest.get? j = some bbj → im.accept (k + 1 + j) bbj = none := by
        intro j bbj hj hget
        have := hpre (j + 1) bbj (Nat.succ_lt_succ hj) hget
        simpa [Nat.add_comm, Nat.add_assoc, Nat.add_left_comm] using this
      have hfail2 : im.accept (k + 1 + n) bbi = some e := by
        simpa [Nat.add_comm, Nat.add_assoc, Nat.add_left_comm] using hfail
      simp [imWriteLoop, h0, ih (k + 1) n bbi e hpre2 hi hfail2]

theorem runOps_lastWriteMsg :
    ∀ (ops : List WOp) (s : IntroState),
      runOps s ops = (match lastWriteMsg ops with
        | some m => ⟨m.question, m.answer⟩
        | none => s) := by
  intro ops
  induction ops with
  | nil => intro s; rfl
  | cons op rest ih =>
    intro s
    cases op with
    | raw b =>
      simp only [runOps, List.foldl, applyOp, lastWriteMsg]
      exact ih s
    | msg m =>
      simp only [runOps, List.foldl, applyOp, lastWriteMsg]
      have := ih ⟨m.question, m.answer⟩
      cases h : lastWriteMsg rest with
      | none => simpa [h] using this
      | some m2 => simpa [h] using this

/-- Concrete timestamp JSON value used by the test fixtures. -/
def tsJ : Json := .str "2025-01-01T00:00:00Z"

/-- Concrete timestamp fixture. -/
def ts0 : Timestamp := ⟨"2025-01-01 00:00:00", .ok tsJ⟩

/-- Concrete timestamp fixture whose JSON marshalling fails. -/
def tsB : Timestamp := ⟨"1970-01-01 00:00:00", .error "ts marshal broke"⟩

/-- Concrete local endpoint fixture. -/
def l0 : Addr := ⟨"udp", "10.0.0.1:53"⟩

/-- Concrete remote endpoint fixture. -/
def r0 : Addr := ⟨"udp", "192.0.2.5:51000"⟩

/-- Concrete question fixtures. -/
def qa : Question := ⟨"a.example.", 1, 1, ";a.example. IN A"⟩

/-- Second concrete question fixture. -/
def qb : Question := ⟨"b.example.", 1, 1, ";b.example. IN A"⟩

/-- Third concrete question fixture. -/
def qc : Question := ⟨"c.example.", 1, 1, ";c.example. IN A"⟩

/-- Concrete answer fixture whose marshalling succeeds. -/
def rr1 : RR :=
  ⟨"a.example. 300 IN A 192.0.2.1",
   .ok (.obj [("Hdr", .obj [("Name", .str "a.example.")]), ("A", .str "192.0.2.1")])⟩

/-- Concrete answer fixture whose marshalling fails. -/
def rrB : RR := ⟨"b.example. 300 IN A 192.0.2.2", .error "bad rr"⟩

/-- Request message fixture with one question. -/
def msg1 : Msg := ⟨[qa], [], .ok ""⟩

/-- Request message fixture with three questions and no answers. -/
def msg3 : Msg := ⟨[qa, qb, qc], [], .ok ""⟩

/-- Downstream fixture: writes msg3 through the interceptor and returns
status 0 with no error. -/
def d3 : Downstream := ⟨[WOp.msg msg3], (0, none)⟩

/-- Muxer fixture that accepts every record. -/
def imOk : Muxer := ⟨fun _ _ => none⟩

/-- Muxer fixture that rejects the second write of the transaction. -/
def imFail1 : Muxer := ⟨fun k _ => if k == 1 then some "write failed" else none⟩

/-- C1: for every captured transaction and both encoding modes, Encode
produces exactly one Record per question; the Record at index i describes
the answer at i when one exists and the bare question otherwise, and it
carries the timestamp, protocol, local address, and remote address (for
json mode this is stated for indices whose payload marshals successfully;
the defensive fallback for marshal failure is the subject of C5). -/
theorem c1_encode_pairing (ts : Timestamp) (l r : Addr) (tr : IntroState) :
    (textEncoderEncode ts l r tr).length = tr.q.length ∧
    (jsonEncoderEncode ts l r tr).length = tr.q.length ∧
    (∀ i qi, tr.q.get? i = some qi →
      ((∀ ai, tr.a.get? i = some ai →
          (textEncoderEncode ts l r tr).get? i = some (fmtTextLine ts l r ai.str)) ∧
       (tr.a.get? i = none →
          (textEncoderEncode ts l r tr).get? i = some (fmtTextLine ts l r qi.str)))) ∧
    (∀ i qi tj, ts.mjson = .ok tj → tr.q.get? i = some qi →
      ((∀ ai rj, tr.a.get? i = some ai → ai.marshal = .ok rj →
          (jsonEncoderEncode ts l r tr).get? i = some (payloadObj tj l r rj).render) ∧
       (tr.a.get? i = none →
          (jsonEncoderEncode ts l r tr).get? i
            = some (payloadObj tj l r (questionHdrObj qi)).render))) := by
  refine ⟨textEncodeGo_length ts l r tr.q tr.a, jsonEncodeGo_length ts l r tr.q tr.a, ?_, ?_⟩
  · intro i qi hq
    exact textEncodeGo_get ts l r tr.q tr.a i qi hq
  · intro i qi tj hts hq
    exact jsonEncode_record_ok ts l r tr i qi tj hts hq

/-- Witness for C1 at a concrete transaction with two questions and one
answer. -/
theorem c1_encode_pairing_witness :
    (textEncoderEncode ts0 l0 r0 ⟨[qa, qb], [rr1]⟩).get? 0
      = some (fmtTextLine ts0 l0 r0 rr1.str) ∧
    (textEncoderEncode ts0 l0 r0 ⟨[qa, qb], [rr1]⟩).get? 1
      = some (fmtTextLine ts0 l0 r0 qb.str) ∧
    (jsonEncoderEncode ts0 l0 r0 ⟨[qa, qb], [rr1]⟩).length = 2 :=
  ⟨((c1_encode_pairing ts0 l0 r0 ⟨[qa, qb], [rr1]⟩).2.2.1 0 qa rfl).1 rr1 rfl,
   ((c1_encode_pairing ts0 l0 r0 ⟨[qa, qb], [rr1]⟩).2.2.1 1 qb rfl).2 rfl,
   (c1_encode_pairing ts0 l0 r0 ⟨[qa, qb], [rr1]⟩).2.1⟩

/-- C2 counterexample: at a concrete one-question request and downstream
error text boom, the text-mode EncodeError record is the plain question
line and does not embed the error text, refuting the claim that every
EncodeError Record embeds the error text in both modes. -/
theorem c2_text_error_not_embedded :
    textEncodeError ts0 l0 r0 msg1 "boom" = [fmtTextLine ts0 l0 r0 qa.str] ∧
    embedsText (fmtTextLine ts0 l0 r0 qa.str) "boom" = false :=
  ⟨rfl, rfl⟩

/-- C2 as amended: EncodeError produces exactly one Record per question of
the original request in both modes; in json mode each Record embeds the
error text in its Error field, while in text mode each Record is only the
timestamp, protocol, endpoint, question line without the error text. -/
theorem c2_encode_error_per_question (ts : Timestamp) (l r : Addr) (msg : Msg) (e : String) :
    (textEncodeError ts l r msg e).length = msg.question.length ∧
    (jsonEncodeError ts l r msg e).length = msg.question.length ∧
    (∀ i qi, msg.question.get? i = some qi →
       (textEncodeError ts l r msg e).get? i = some (fmtTextLine ts l r qi.str)) ∧
    (∀ i qi tj, ts.mjson = .ok tj → msg.question.get? i = some qi →
       (jsonEncodeError ts l r msg e).get? i = some (errObj tj l r qi e).render ∧
       (errObj tj l r qi e).lookup "Error" = some (.str e)) := by
  refine ⟨List.length_map _ _, List.length_map _ _, ?_, ?_⟩
  · intro i qi hq
    have hq2 : msg.question[i]? = some qi := by simpa using hq
    simp [textEncodeError, List.getElem?_map, hq2]
  · intro i qi tj hts hq
    have hq2 : msg.question[i]? = some qi := by simpa using hq
    constructor
    · simp [jsonEncodeError, List.getElem?_map, hq2, marshalErrAnswer, hts, renderOrFallback]
    · rfl

/-- Witness for C2 at concrete one-question and three-question requests. -/
theorem c2_encode_error_per_question_witness :
    (textEncodeError ts0 l0 r0 msg3 "boom").length = 3 ∧
    (jsonEncodeError ts0 l0 r0 msg3 "boom").length = 3 ∧
    (jsonEncodeError ts0 l0 r0 msg1 "boom").get? 0
      = some (errObj tsJ l0 r0 qa "boom").render ∧
    (textEncodeError ts0 l0 r0 msg1 "boom").get? 0
      = some (fmtTextLine ts0 l0 r0 qa.str) :=
  ⟨(c2_encode_error_per_question ts0 l0 r0 msg3 "boom").1,
   (c2_encode_error_per_question ts0 l0 r0 msg3 "boom").2.1,
   ((c2_encode_error_per_question ts0 l0 r0 msg1 "boom").2.2.2 0 qa tsJ rfl rfl).1,
   (c2_encode_error_per_question ts0 l0 r0 msg1 "boom").2.2.1 0 qa rfl⟩

/-- C3 counterexample: at a concrete three-record transaction whose second
im.Write call fails, the third record is not submitted, yet ServeDNS
returns err equal to none, refuting the part of the claim that says the
Handler returns a non-nil error surfacing the submission failure. -/
theorem c3_submission_failure_not_surfaced :
    (serveDNS (some .text) imFail1 ts0 l0 r0 d3 msg3).writes.map Prod.snd
      = [none, some "write failed"] ∧
    (serveDNS (some .text) imFail1 ts0 l0 r0 d3 msg3).err = none :=
  ⟨rfl, rfl⟩

/-- C3 as amended: a failing im.Write aborts submission of the remaining
Records of the transaction (the already submitted ones are not rolled
back), but ServeDNS still returns the downstream status code and error
unchanged, so the submission failure is not surfaced through the return
value. -/
theorem c3_submission_abort (enc : Option EncKind) (im : Muxer) (ts : Timestamp)
    (l r : Addr) (d : Downstream) (rm : Msg) (i : Nat) (bbi e : String)
    (hpre : ∀ j bbj, j < i → (serveRecords enc ts l r d rm).get? j = some bbj →
       im.accept j bbj = none)
    (hi : (serveRecords enc ts l r d rm).get? i = some bbi)
    (hfail : im.accept i bbi = some e) :
    (serveDNS enc im ts l r d rm).writes
      = ((serveRecords enc ts l r d rm).take i).map (fun bb => (bb, none))
        ++ [(bbi, some e)] ∧
    (serveDNS enc im ts l r d rm).c = d.res.1 ∧
    (serveDNS enc im ts l r d rm).err = d.res.2 := by
  refine ⟨?_, rfl, rfl⟩
  show imWriteLoop im 0 (serveRecords enc ts l r d rm) = _
  refine imWriteLoop_first_fail im (serveRecords enc ts l r d rm) 0 i bbi e ?_ hi ?_
  · intro j bbj hj hget
    simpa using hpre j bbj hj hget
  · simpa using hfail

/-- Witness for C3 at the concrete three-record transaction with a failure
on the second write. -/
theorem c3_submission_abort_witness :
    (serveDNS (some .text) imFail1 ts0 l0 r0 d3 msg3).writes
      = ((serveRecords (some .text) ts0 l0 r0 d3 msg3).take 1).map (fun bb => (bb, none))
        ++ [(fmtTextLine ts0 l0 r0 qb.str, some "write failed")] ∧
    (serveDNS (some .text) imFail1 ts0 l0 r0 d3 msg3).err = none := by
  have h := c3_submission_abort (some .text) imFail1 ts0 l0 r0 d3 msg3 1
    (fmtTextLine ts0 l0 r0 qb.str) "write failed"
    (by intro j bbj hj hget
        have hj0 : j = 0 := by omega
        subst hj0
        rfl)
    rfl rfl
  exact ⟨h.1, h.2.2⟩

/-- C4: the status code and error returned by ServeDNS are exactly the
downstream handler results, for every encoder configuration, muxer
behavior, downstream behavior, and request; in the source only the
downstream call assigns the named return values c and err. -/
theorem c4_downstream_result_preserved (enc : Option EncKind) (im : Muxer)
    (ts : Timestamp) (l r : Addr) (d : Downstream) (rm : Msg) :
    (serveDNS enc im ts l r d rm).c = d.res.1 ∧
    (serveDNS enc im ts l r d rm).err = d.res.2 :=
  ⟨rfl, rfl⟩

/-- C5: in json mode the Record count always equals the question count,
regardless of marshal failures; an index whose payload fails to marshal
still yields a Record, namely the textual fallback embedding the marshal
error, in Encode and in EncodeError alike; the encoders return only the
record list, so no marshal error is propagated. -/
theorem c5_marshal_failure_fallback (ts : Timestamp) (l r : Addr) (tr : IntroState)
    (msg : Msg) (e : String) :
    (jsonEncoderEncode ts l r tr).length = tr.q.length ∧
    (jsonEncodeError ts l r msg e).length = msg.question.length ∧
    (∀ i qi, tr.q.get? i = some qi →
      ((∀ ai em, tr.a.get? i = some ai → marshalDnsAnswer ts l r ai = .error em →
          (jsonEncoderEncode ts l r tr).get? i = some (jsonFallback ts em)) ∧
       (∀ em, tr.a.get? i = none → marshalDnsQuestion ts l r qi = .error em →
          (jsonEncoderEncode ts l r tr).get? i = some (jsonFallback ts em)))) ∧
    (∀ i qi em, msg.question.get? i = some qi →
       marshalErrAnswer ts l r qi e = .error em →
       (jsonEncodeError ts l r msg e).get? i = some (jsonFallback ts em)) := by
  refine ⟨jsonEncodeGo_length ts l r tr.q tr.a, List.length_map _ _, ?_, ?_⟩
  · intro i qi hq
    have h := jsonEncodeGo_get ts l r tr.q tr.a i qi hq
    constructor
    · intro ai em hai hm
      show (jsonEncodeGo ts l r tr.q tr.a).get? i = _
      rw [h.1 ai hai, hm]
      rfl
    · intro em hnone hm
      show (jsonEncodeGo ts l r tr.q tr.a).get? i = _
      rw [h.2 hnone, hm]
      rfl
  · intro i qi em hq hm
    have hq2 : msg.question[i]? = some qi := by simpa using hq
    simp [jsonEncodeError, List.getElem?_map, hq2, hm, renderOrFallback]

/-- Witness for C5: a concrete answer whose marshalling fails yields the
fallback record in Encode, and a concrete timestamp whose marshalling
fails yields the fallback record in EncodeError; counts are preserved. -/
theorem c5_marshal_failure_fallback_witness :
    (jsonEncoderEncode ts0 l0 r0 ⟨[qa], [rrB]⟩).length = 1 ∧
    (jsonEncoderEncode ts0 l0 r0 ⟨[qa], [rrB]⟩).get? 0
      = some (jsonFallback ts0 "bad rr") ∧
    (jsonEncodeError tsB l0 r0 msg1 "boom").get? 0
      = some (jsonFallback tsB "ts marshal broke") :=
  ⟨(c5_marshal_failure_fallback ts0 l0 r0 ⟨[qa], [rrB]⟩ msg1 "boom").1,
   ((c5_marshal_failure_fallback ts0 l0 r0 ⟨[qa], [rrB]⟩ msg1 "boom").2.2.1 0 qa rfl).1
     rrB "bad rr" rfl rfl,
   (c5_marshal_failure_fallback tsB l0 r0 ⟨[qa], [rrB]⟩ msg1 "boom").2.2.2 0 qa
     "ts marshal broke" rfl rfl⟩

/-- C6: the encoding configuration of the current source accepts text,
json, and the empty string (after lowercasing and trimming), defaults to
the json encoder when no directive is given, and rejects every other
value, including native, with the Unknown encoding type error; the claim
and the repository README list native as a supported mode, so this is a
divergence of the code from its own documentation. -/
theorem c6_get_encoder_modes :
    getEncoder "native" = .error "Unknown encoding type" ∧
    getEncoder "text" = .ok .text ∧
    getEncoder "json" = .ok .json ∧
    getEncoder "" = .ok .json ∧
    getEncoder " TEXT " = .ok .text ∧
    getEncoder "Native" = .error "Unknown encoding type" ∧
    getEncoder "binary" = .error "Unknown encoding type" ∧
    getEncoder "bogus" = .error "Unknown encoding type" ∧
    configuredEncoder none = .ok .json ∧
    configuredEncoder (some "native") = .error "Unknown encoding type" :=
  ⟨rfl, rfl, rfl, rfl, rfl, rfl, rfl, rfl, rfl, rfl⟩

/-- C7: when the downstream succeeds and every im.Write call succeeds, the
submission trace is exactly the encoder output in order, one Record per
captured question; submission order equals question order for both
encoders. -/
theorem c7_submission_order (ge : EncKind) (im : Muxer) (ts : Timestamp) (l r : Addr)
    (d : Downstream) (rm : Msg)
    (hok : d.res.2 = none)
    (hacc : ∀ k bb, im.accept k bb = none) :
    (serveDNS (some ge) im ts l r d rm).writes
      = (encodeWith ge ts l r (runOps introInit d.ops)).map (fun bb => (bb, none)) ∧
    (encodeWith ge ts l r (runOps introInit d.ops)).length
      = (runOps introInit d.ops).q.length := by
  constructor
  · show imWriteLoop im 0 (serveRecords (some ge) ts l r d rm) = _
    have hrec : serveRecords (some ge) ts l r d rm
        = encodeWith ge ts l r (runOps introInit d.ops) := by
      simp [serveRecords, hok]
    rw [hrec]
    exact imWriteLoop_all_ok im hacc _ 0
  · cases ge with
    | text => exact textEncodeGo_length ts l r _ _
    | json => exact jsonEncodeGo_length ts l r _ _

/-- Witness for C7 at the concrete three-question transaction with an
always-accepting muxer. -/
theorem c7_submission_order_witness :
    (serveDNS (some .text) imOk ts0 l0 r0 d3 msg3).writes
      = (encodeWith .text ts0 l0 r0 (runOps introInit d3.ops)).map (fun bb => (bb, none)) ∧
    (encodeWith .text ts0 l0 r0 (runOps introInit d3.ops)).length
      = (runOps introInit d3.ops).q.length :=
  c7_submission_order .text imOk ts0 l0 r0 d3 msg3 rfl (fun _ _ => rfl)

/-- C8: the introspector delegates every raw Write unmodified without
touching the capture fields, delegates every WriteMsg unmodified after
copying its Question and Answer sections into the capture fields, returns
the wrapped writer results in both cases, and after any sequence of writes
the capture equals the sections of the last structured-message write, or
stays at the empty initial capture when there was none. -/
theorem c8_interceptor_capture :
    (∀ (rw : RespWriter) (s : IntroState) (b : String),
        introWrite rw s b = (s, rw.writeRes b)) ∧
    (∀ (rw : RespWriter) (s : IntroState) (m : Msg),
        introWriteMsg rw s m = (⟨m.question, m.answer⟩, rw.writeMsgRes m)) ∧
    (∀ ops : List WOp,
        runOps introInit ops = (match lastWriteMsg ops with
          | some m => ⟨m.question, m.answer⟩
          | none => introInit)) :=
  ⟨fun _ _ _ => rfl, fun _ _ _ => rfl, fun ops => runOps_lastWriteMsg ops introInit⟩

/-- C9: in json mode, for an index whose payload marshals successfully,
the produced Record is the rendering of a JSON object from which field
lookup (the decoding of the object) returns exactly the timestamp,
protocol, local address, and remote address used to construct it, together
with the marshalled answer at that index, or the bare question wrapped
under Hdr with its Name, Qtype and Qclass intact. -/
theorem c9_json_roundtrip (ts : Timestamp) (l r : Addr) (tr : IntroState) (i : Nat)
    (tj : Json) (qi : Question)
    (hts : ts.mjson = .ok tj) (hq : tr.q.get? i = some qi) :
    (∀ ai rj, tr.a.get? i = some ai → ai.marshal = .ok rj →
       (jsonEncoderEncode ts l r tr).get? i = some (payloadObj tj l r rj).render ∧
       (payloadObj tj l r rj).lookup "TS" = some tj ∧
       (payloadObj tj l r rj).lookup "Proto" = some (.str l.network) ∧
       (payloadObj tj l r rj).lookup "Local" = some (.str l.str) ∧
       (payloadObj tj l r rj).lookup "Remote" = some (.str r.str) ∧
       (payloadObj tj l r rj).lookup "Question" = some rj) ∧
    (tr.a.get? i = none →
       (jsonEncoderEncode ts l r tr).get? i
         = some (payloadObj tj l r (questionHdrObj qi)).render ∧
       (payloadObj tj l r (questionHdrObj qi)).lookup "TS" = some tj ∧
       (payloadObj tj l r (questionHdrObj qi)).lookup "Proto" = some (.str l.network) ∧
       (payloadObj tj l r (questionHdrObj qi)).lookup "Local" = some (.str l.str) ∧
       (payloadObj tj l r (questionHdrObj qi)).lookup "Remote" = some (.str r.str) ∧
       (payloadObj tj l r (questionHdrObj qi)).lookup "Question"
         = some (questionHdrObj qi) ∧
       (questionHdrObj qi).lookup "Hdr" = some (questionJson qi) ∧
       (questionJson qi).lookup "Name" = some (.str qi.name) ∧
       (questionJson qi).lookup "Qtype" = some (.num qi.qtype) ∧
       (questionJson qi).lookup "Qclass" = some (.num qi.qclass)) := by
  have h := jsonEncode_record_ok ts l r tr i qi tj hts hq
  constructor
  · intro ai rj hai hm
    exact ⟨h.1 ai rj hai hm, rfl, rfl, rfl, rfl, rfl⟩
  · intro hnone
    exact ⟨h.2 hnone, rfl, rfl, rfl, rfl, rfl, rfl, rfl, rfl, rfl⟩

/-- Witness for C9 at a concrete one-question transaction with one
successfully marshalling answer. -/
theorem c9_json_roundtrip_witness :
    (jsonEncoderEncode ts0 l0 r0 ⟨[qa], [rr1]⟩).get? 0
      = some (payloadObj tsJ l0 r0
          (.obj [("Hdr", .obj [("Name", .str "a.example.")]), ("A", .str "192.0.2.1")])).render ∧
    (payloadObj tsJ l0 r0
        (.obj [("Hdr", .obj [("Name", .str "a.example.")]), ("A", .str "192.0.2.1")])).lookup "TS"
      = some tsJ :=
  have h := (c9_json_roundtrip ts0 l0 r0 ⟨[qa], [rr1]⟩ 0 tsJ qa rfl rfl).1
    rr1 (.obj [("Hdr", .obj [("Name", .str "a.example.")]), ("A", .str "192.0.2.1")]) rfl rfl
  ⟨h.1, h.2.1⟩

/-- C10: text-mode EncodeError output is byte-for-byte identical for any
two downstream errors: the body never reads the error argument, so the
produced Records neither depend on nor contain the downstream error value;
the output is exactly one question line per question of the request. -/
theorem c10_text_error_independent (ts : Timestamp) (l r : Addr) (msg : Msg)
    (e1 e2 : String) :
    textEncodeError ts l r msg e1 = textEncodeError ts l r msg e2 ∧
    textEncodeError ts l r msg e1
      = msg.question.map (fun q => fmtTextLine ts l r q.str) :=
  ⟨rfl, rfl⟩

end GravwellCoreDNS
